import Mathlib

/-!
Verification of the filename pattern inference engine and duplicate
classifier of the File-Org repository (v7.1-dev/src/file_organizer.py).
Pure string/regex logic is embedded as executable Lean functions; file
system state (for the collision handler and the hash database) is made
an explicit association-list parameter.
-/

namespace FileOrg

/-- ASCII whitespace, as matched by the whitespace class of the regexes
in the source. -/
def pyIsSpace (c : Char) : Bool :=
  c = ' ' || c = '\t' || c = '\n' || c = '\r' || c = '\x0b' || c = '\x0c'

/-- The two separator characters the heuristics care about. -/
def isSep (c : Char) : Bool := c = '-' || c = '_'

/-- Python str.isupper over ASCII: at least one letter and no lowercase
letter. -/
def pyIsUpper (l : List Char) : Bool :=
  l.any Char.isAlpha && l.all (fun c => !c.isAlpha || c.isUpper)

/-- Python str.capitalize: first character uppercased, all remaining
characters lowercased. -/
def pyCapitalize : List Char → List Char
  | [] => []
  | c :: cs => c.toUpper :: cs.map Char.toLower

/-- Python str.split on a single separator character (keeps empty
fields, and the empty string splits to one empty field). -/
def pySplit (sep : Char) : List Char → List (List Char)
  | [] => [[]]
  | c :: cs =>
    let r := pySplit sep cs
    if c = sep then [] :: r
    else
      match r with
      | [] => [[c]]
      | w :: ws => (c :: w) :: ws

/-- Python str.rstrip with an explicit character predicate. -/
def rstrip (p : Char → Bool) (l : List Char) : List Char :=
  (l.reverse.dropWhile p).reverse

/-- Characters stripped by rstrip of a space and a dot in the source. -/
def isSpaceDot (c : Char) : Bool := c = ' ' || c = '.'

/-- Characters stripped by rstrip of space, underscore, dash and dot. -/
def isSpaceSepDot (c : Char) : Bool := c = ' ' || c = '_' || c = '-' || c = '.'

/-- Python os.path.splitext for a bare filename: split at the last dot,
unless every character before that dot is itself a dot. -/
def splitext (l : List Char) : List Char × List Char :=
  let rev := l.reverse
  let afterRev := rev.takeWhile (fun c => c ≠ '.')
  match rev.dropWhile (fun c => c ≠ '.') with
  | [] => (l, [])
  | _ :: beforeRev =>
    if beforeRev.any (fun c => c ≠ '.') then
      (beforeRev.reverse, '.' :: afterRev.reverse)
    else (l, [])

/-- Decide whether a suffix is a duplicate marker: optional whitespace,
an optional single dash or underscore, then a parenthesized nonempty
digit run reaching the end of the string. -/
def isDupMarker (l : List Char) : Bool :=
  let r1 := l.dropWhile pyIsSpace
  let r2 :=
    match r1 with
    | c :: t => if isSep c then t else r1
    | [] => r1
  match r2 with
  | '(' :: t =>
    match t.reverse with
    | ')' :: dsRev => !dsRev.isEmpty && dsRev.all Char.isDigit
    | _ => false
  | _ => false

/-- Remove the leftmost-starting duplicate-marker suffix, as the
end-anchored substitution in the source does. -/
def stripDupMarker (l : List Char) : List Char :=
  match (List.range l.length).find? (fun i => isDupMarker (l.drop i)) with
  | some i => l.take i
  | none => l

/-- Decide whether a suffix is a nonempty digit run with at most one
trailing letter, reaching the end of the string. -/
def isNumTail (l : List Char) : Bool :=
  match l.reverse with
  | [] => false
  | c :: rest =>
    if c.isAlpha then !rest.isEmpty && rest.all Char.isDigit
    else l.all Char.isDigit

/-- Remove a trailing digit run (with an optional single trailing
letter) that is immediately preceded by a dash or underscore, as the
lookbehind substitution in the source does. -/
def stripSepNumSuffix (l : List Char) : List Char :=
  match (List.range l.length).find? (fun i =>
      decide (0 < i) && isSep (l.getD (i - 1) ' ') && isNumTail (l.drop i)) with
  | some i => l.take i
  | none => l

/-- Search for a trailing digit run with an optionally captured single
preceding separator; returns the text before the match and the captured
delimiter (empty when no separator precedes the run). -/
def searchTrailingNum (l : List Char) : Option (List Char × List Char) :=
  let dsRev := l.reverse.takeWhile Char.isDigit
  if dsRev.isEmpty then none
  else
    let before := l.take (l.length - dsRev.length)
    match before.reverse with
    | c :: _ =>
      if isSep c then some (before.take (before.length - 1), [c])
      else some (before, [])
    | [] => some ([], [])

/-- Leftmost lazy split for the anchored pattern of a nonempty base, a
single separator, and at least two trailing digits. -/
def matchSepDigits? (l : List Char) : Option (List Char × Char × List Char) :=
  match (List.range l.length).find? (fun p =>
      decide (0 < p) && isSep (l.getD p ' ') &&
      decide (2 ≤ (l.drop (p + 1)).length) && (l.drop (p + 1)).all Char.isDigit) with
  | some p => some (l.take p, l.getD p ' ', l.drop (p + 1))
  | none => none

/-- Anchored match of a nonempty letter run directly followed by at
least minDigits digits reaching the end; returns the letter run. -/
def matchAlphaNum? (minDigits : Nat) (l : List Char) : Option (List Char) :=
  let as := l.takeWhile Char.isAlpha
  let rest := l.drop as.length
  if !as.isEmpty && decide (minDigits ≤ rest.length) && rest.all Char.isDigit then some as
  else none

/-- Anchored match of a nonempty digit run, a separator, and at least
two trailing digits; returns the leading digit run. -/
def matchNumSepDigits? (l : List Char) : Option (List Char) :=
  let ds := l.takeWhile Char.isDigit
  match l.drop ds.length with
  | c :: t =>
    if !ds.isEmpty && isSep c && decide (2 ≤ t.length) && t.all Char.isDigit then some ds
    else none
  | [] => none

/-- The Windows reserved device names guarded against by the source. -/
def reservedNames : List String :=
  ["CON", "PRN", "AUX", "NUL",
   "COM1", "COM2", "COM3", "COM4", "COM5", "COM6", "COM7", "COM8", "COM9",
   "LPT1", "LPT2", "LPT3", "LPT4", "LPT5", "LPT6", "LPT7", "LPT8", "LPT9"]

/-- Uppercase every character of a string. -/
def upperStr (s : String) : String := String.mk (s.data.map Char.toUpper)

/-- A string is case-insensitively equal to a reserved device name. -/
def reservedCI (s : String) : Bool := reservedNames.contains (upperStr s)

/-- sanitize_folder_name from the source: append one underscore when the
part before the first dot is, uppercased, a reserved device name. -/
def sanitize_folder_name (folder_name : String) : String :=
  if folder_name = "" then folder_name
  else
    let base_name := upperStr (String.mk (folder_name.data.takeWhile (fun c => c ≠ '.')))
    if reservedNames.contains base_name then folder_name ++ "_" else folder_name

/-- smart_title from the source, on character lists: per underscore
separated word, keep all-uppercase words and capitalize the rest. -/
def smart_title_chars (l : List Char) : List Char :=
  List.intercalate ['_']
    ((pySplit '_' l).map (fun w => if pyIsUpper w then w else pyCapitalize w))

/-- smart_title from the source, on strings. -/
def smart_title (s : String) : String := String.mk (smart_title_chars s.data)

/-- The hyphen join used by detect_folder_name: capitalize every
hyphen-separated word. -/
def hyphenJoin (l : List Char) : List Char :=
  List.intercalate ['-'] ((pySplit '-' l).map pyCapitalize)

/-- Python str.rfind of a character, with -1 when absent. -/
def rfind (c : Char) (l : List Char) : Int :=
  match l.reverse.findIdx? (fun x => x = c) with
  | some j => (l.length : Int) - 1 - j
  | none => -1

/-- The folder variable of detect_folder_name: reconstruct a candidate
folder name from the dominant delimiter of pre, tagging a mismatched
trailing-number delimiter. -/
def folderCandidate (pre delim : List Char) : Option (List Char) :=
  if pre.contains '_' && !pre.contains '-' then
    let f := smart_title_chars pre
    some (if delim = ['-'] then f ++ "[-]".data else f)
  else if pre.contains '-' && !pre.contains '_' then
    let f := hyphenJoin pre
    some (if delim = ['_'] then f ++ "[_]".data else f)
  else if pre.contains '-' && pre.contains '_' then
    let f := if rfind '-' pre > rfind '_' pre then hyphenJoin pre else smart_title_chars pre
    some (if delim = ['_'] then f ++ "[_]".data
          else if delim = ['-'] then f ++ "[-]".data else f)
  else
    match matchAlphaNum? 1 pre with
    | some as => some (pyCapitalize as)
    | none => none

/-- The final return line of detect_folder_name: sanitize the
space-and-dot-stripped candidate when one was found and it is not the
empty (falsy) string. -/
def finishFolder (fo : Option (List Char)) : Option String :=
  match fo with
  | some f =>
    if f.isEmpty then none
    else some (sanitize_folder_name (String.mk (rstrip isSpaceDot f)))
  | none => none

/-- detect_folder_name from the source: strip the duplicate marker and
the separator-anchored number suffix, then reconstruct a folder name
from the dominant delimiter, tagging a mismatched trailing-number
delimiter, and sanitize the result. -/
def detect_folder_name (filename : String) : Option String :=
  let b0 := (splitext filename.data).1
  let b1 := rstrip isSpaceDot (stripDupMarker b0)
  let base := rstrip isSpaceSepDot (stripSepNumSuffix b1)
  let pd :=
    match searchTrailingNum base with
    | some r => r
    | none => (base, ([] : List Char))
  finishFolder (folderCandidate pd.1 pd.2)

/-- The camera tags of the source, in the alternation order of its
regex. -/
def camTags : List String := ["IMG", "DSC", "DSCN", "DCS", "DCSN"]

/-- The lookahead of the camera-tag regex: digit, underscore, dot, or
end of string. -/
def camLookahead : List Char → Bool
  | [] => true
  | c :: _ => c.isDigit || c = '_' || c = '.'

/-- Try the camera tags, in alternation order, at one position of the
filename (case-insensitively), honoring the lookahead. -/
def tryTagAt (l : List Char) : Option String :=
  camTags.findSome? (fun t =>
    if (l.take t.data.length).map Char.toUpper = t.data && camLookahead (l.drop t.data.length)
    then some t else none)

/-- extract_img_tag from the source: leftmost case-insensitive camera
tag followed by digit, underscore, dot or end, uppercased and
sanitized. -/
def extract_img_tag (filename : String) : Option String :=
  match (List.range filename.data.length).findSome?
      (fun i => tryTagAt (filename.data.drop i)) with
  | some t => some (sanitize_folder_name t)
  | none => none

/-- detect_sequential_pattern from the source: strip the duplicate
marker, then try base-separator-digits, letters-digits, and
digits-separator-digits in order, casing and sanitizing the base. -/
def detect_sequential_pattern (filename : String) : Option String :=
  let base := rstrip isSpaceDot (stripDupMarker (splitext filename.data).1)
  match matchSepDigits? base with
  | some r =>
    let b := r.1
    if pyIsUpper b then some (sanitize_folder_name (String.mk b))
    else some (sanitize_folder_name (String.mk (pyCapitalize b)))
  | none =>
  match matchAlphaNum? 2 base with
  | some b =>
    if pyIsUpper b then some (sanitize_folder_name (String.mk b))
    else some (sanitize_folder_name (String.mk (pyCapitalize b)))
  | none =>
  match matchNumSepDigits? base with
  | some ds => some (sanitize_folder_name (String.mk ds))
  | none => none

/-- Flush a pending letter run into the signature: all-uppercase runs of
at most five letters are kept verbatim, other runs collapse to TEXT. -/
def sigFlush (run : List Char) : List Char :=
  if run.isEmpty then []
  else if pyIsUpper run && decide (run.length ≤ 5) then run
  else "TEXT".data

/-- Signature scan of the source: digits become N one per digit, letter
runs are flushed via sigFlush, other characters pass through. -/
def sigGo (run : List Char) : List Char → List Char
  | [] => sigFlush run
  | c :: cs =>
    if c.isAlpha then sigGo (run ++ [c]) cs
    else if c.isDigit then sigFlush run ++ ('N' :: sigGo [] cs)
    else sigFlush run ++ (c :: sigGo [] cs)

/-- extract_signature from the source: shape signature of the stem. -/
def extract_signature (filename : String) : String :=
  String.mk (sigGo [] (splitext filename.data).1)

/-- One learned pattern entry: folder, usage count, recent examples. -/
structure LearnedPattern where
  folder : String
  count : Nat
  examples : List String
deriving Repr, DecidableEq

/-- The learned-pattern store, an insertion-ordered dictionary. -/
abbrev Patterns := List (String × LearnedPattern)

/-- Dictionary lookup on an association list (first match). -/
def dictGet {α : Type} : List (String × α) → String → Option α
  | [], _ => none
  | (k2, v) :: t, k => if k2 = k then some v else dictGet t k

/-- Dictionary write on an association list: replace in place when the
key is present, append at the end otherwise. -/
def dictSet {α : Type} : List (String × α) → String → α → List (String × α)
  | [], k, v => [(k, v)]
  | (k2, v2) :: t, k, v =>
    if k2 = k then (k2, v) :: t else (k2, v2) :: dictSet t k v

/-- Python slicing from the end: the last n elements of a list. -/
def lastN {α : Type} (n : Nat) (l : List α) : List α := l.drop (l.length - n)

/-- PatternLearner.learn from the source: create on unknown signature,
increment on agreement, and on disagreement either derive an _ALT entry
(stored count above three) or overwrite with count one; examples of the
existing entry keep only the last five. -/
def PatternLearner.learn (st : Patterns) (filename folder : String) : Patterns :=
  let signature := extract_signature filename
  match dictGet st signature with
  | none => dictSet st signature ⟨folder, 1, [filename]⟩
  | some p =>
    if p.folder = folder then
      dictSet st signature
        { p with count := p.count + 1, examples := lastN 5 (p.examples ++ [filename]) }
    else if p.count > 3 then
      dictSet (dictSet st (signature ++ "_ALT") ⟨folder, 1, [filename]⟩) signature
        { p with examples := lastN 5 (p.examples ++ [filename]) }
    else
      dictSet st signature ⟨folder, 1, lastN 5 (p.examples ++ [filename])⟩

/-- PatternLearner.predict from the source: look the signature up and
report the stored folder with confidence min(0.99, 0.80 + count*0.03). -/
def PatternLearner.predict (st : Patterns) (filename : String) : Option (String × ℚ) :=
  match dictGet st (extract_signature filename) with
  | some p => some (p.folder, min (99/100 : ℚ) (80/100 + p.count * (3/100)))
  | none => none

/-- IntelligentPatternDetector.detect from the source: learned patterns,
then camera tags at 0.95, sequential patterns at 0.90, smart delimiter
patterns at 0.80, otherwise no pattern at 0.0. -/
def IntelligentPatternDetector.detect (st : Patterns) (filename : String) :
    Option String × ℚ × String :=
  match PatternLearner.predict st filename with
  | some fc => (some fc.1, fc.2, "Learned Pattern")
  | none =>
  match extract_img_tag filename with
  | some tag => (some tag, 95/100, "Camera Tag")
  | none =>
  match detect_sequential_pattern filename with
  | some s => (some s, 90/100, "Sequential Pattern")
  | none =>
  match detect_folder_name filename with
  | some s => (some s, 80/100, "Smart Pattern")
  | none => (none, 0, "No Pattern")

/-- Metadata of a file on disk: byte size (negative on a read failure,
as get_file_size reports -1) and an optional timestamp in seconds. -/
structure FileInfo where
  size : Int
  date : Option ℚ
deriving Repr, DecidableEq

/-- The file system visible to move_file: path to metadata. -/
abbrev FileSystem := List (String × FileInfo)

/-- posix path join as used on the single-segment inputs of the source. -/
def pathJoin (a b : String) : String := if a = "" then b else a ++ "/" ++ b

/-- Characters of the directory part of a path: everything before the
last slash, empty when there is none. -/
def dirnameChars : List Char → Option (List Char)
  | [] => none
  | c :: t =>
    match dirnameChars t with
    | some r => some (c :: r)
    | none => if c = '/' then some [] else none

/-- os.path.dirname on the slash-joined paths move_file builds. -/
def dirname (p : String) : String :=
  match dirnameChars p.data with
  | some r => String.mk r
  | none => ""

/-- Python abs on rational timestamps. -/
def ratAbs (q : ℚ) : ℚ := if q < 0 then -q else q

/-- The same-date test of move_file: both timestamps present and less
than one second apart. -/
def sameDateB : Option ℚ → Option ℚ → Bool
  | some a, some b => decide (ratAbs (a - b) < 1)
  | _, _ => false

/-- Destination folder choice of the decision matrix: a sibling !Dupes
folder when size and date agree, a sibling !Dupes Size folder when only
the date agrees, the original target folder otherwise. -/
def collisionDst (target_root dst_folder : String) (same_size same_date : Bool)
    (nm : String) : String :=
  if same_size && same_date then pathJoin (pathJoin target_root "!Dupes") nm
  else if !same_size && same_date then pathJoin (pathJoin target_root "!Dupes Size") nm
  else pathJoin dst_folder nm

/-- Numbered nested-collision filename: counter inside the same bracket
or brace style. -/
def collisionName (base ext : String) (same_size : Bool) (counter : Nat) : String :=
  if same_size then base ++ "[d]" ++ toString counter ++ ext
  else base ++ "{d}" ++ toString counter ++ ext

/-- The nested-collision while loop of move_file: retry with an
incrementing counter, giving up once the counter passes 100. -/
def collisionLoop (fs : FileSystem) (base ext target_root dst_folder : String)
    (same_size same_date : Bool) : Nat → String → Nat → Option String
  | 0, _, _ => none
  | fuel + 1, dst, counter =>
    if (dictGet fs dst).isSome then
      let nm := collisionName base ext same_size counter
      if counter + 1 > 100 then none
      else
        collisionLoop fs base ext target_root dst_folder same_size same_date fuel
          (collisionDst target_root dst_folder same_size same_date nm) (counter + 1)
    else some dst

/-- The destination computation of move_file: without a collision the
file keeps its name in the target folder; on a collision the duplicate
decision matrix picks the folder from size and date agreement, a [d] or
a brace-d marker is appended before the extension, and nested
collisions are numbered. Returns none when the move is given up. -/
def move_file (fs : FileSystem) (srcInfo : FileInfo) (dst_folder filename : String) :
    Option String :=
  let se := splitext filename.data
  let base := String.mk se.1
  let ext := String.mk se.2
  let dst := pathJoin dst_folder filename
  match dictGet fs dst with
  | none => some dst
  | some dstInfo =>
    let same_size := decide (srcInfo.size = dstInfo.size)
    let same_date := sameDateB srcInfo.date dstInfo.date
    let target_root := dirname dst_folder
    let nm0 := if same_size then base ++ "[d]" ++ ext else base ++ "{d}" ++ ext
    collisionLoop fs base ext target_root dst_folder same_size same_date 200
      (collisionDst target_root dst_folder same_size same_date nm0) 2

/-- One row of the hash database of DuplicateDetector, keyed by the
triple of filename, size and hash. -/
structure HashRecord where
  filename : String
  size : Int
  hash : String
  path : String
deriving Repr, DecidableEq

/-- INSERT OR REPLACE on the hash table: drop any row with the same
primary key triple and add the new row. -/
def insertOrReplace (db : List HashRecord) (r : HashRecord) : List HashRecord :=
  db.filter (fun x =>
    !(x.filename = r.filename && x.size = r.size && x.hash = r.hash)) ++ [r]

/-- DuplicateDetector.check_duplicate from the source, with the outcome
of compute_hash passed in explicitly (none when the file could not be
read). Returns the classification pair and the updated database. -/
def check_duplicate (db : List HashRecord) (filename : String) (size : Int)
    (filepath : String) (hashResult : Option String) :
    (Bool × String) × List HashRecord :=
  let results := db.filter (fun r => r.filename = filename)
  if results.isEmpty then
    match hashResult with
    | some h => ((false, ""), insertOrReplace db ⟨filename, size, h, filepath⟩)
    | none => ((false, ""), db)
  else
    match hashResult with
    | none => ((false, ""), db)
    | some h =>
      if results.any (fun r => r.hash = h && r.size = size) then ((true, "DUPES"), db)
      else ((true, "DUPE SIZE"), insertOrReplace db ⟨filename, size, h, filepath⟩)

/-- One pattern group of detect_file_patterns; pre and suf model the
prefix and suffix keys of the source dictionary. -/
structure PatternData where
  files : List (String × Nat)
  pre : String
  suf : String
  padding : Nat
  extension : String
  is_pure_numeric : Bool
deriving Repr, DecidableEq

/-- Numeric value of a digit run. -/
def digitsToNat (l : List Char) : Nat :=
  l.foldl (fun a c => a * 10 + (c.toNat - '0'.toNat)) 0

/-- Leftmost lazy split of a stem into a nonempty prefix and a trailing
all-digit run. -/
def matchLazyPreNum? (name : List Char) : Option (List Char × List Char) :=
  match (List.range name.length).find? (fun p =>
      decide (0 < p) && !(name.drop p).isEmpty && (name.drop p).all Char.isDigit) with
  | some p => some (name.take p, name.drop p)
  | none => none

/-- Leftmost lazy split of a stem into a nonempty prefix, a greedy digit
run, and a nonempty suffix, with the regex backtracking that cedes the
last digit to the suffix when nothing else follows the run. -/
def matchLazyPreNumSuf? (name : List Char) : Option (List Char × List Char × List Char) :=
  match (List.range name.length).find? (fun p =>
      decide (0 < p) && (name.getD p ' ').isDigit &&
      (let run := (name.drop p).takeWhile Char.isDigit
       !((name.drop p).drop run.length).isEmpty || decide (2 ≤ run.length))) with
  | some p =>
    let run := (name.drop p).takeWhile Char.isDigit
    let rest := (name.drop p).drop run.length
    if rest.isEmpty then some (name.take p, run.dropLast, run.drop (run.length - 1))
    else some (name.take p, run, rest)
  | none => none

/-- Record one classified file into its pattern group, mirroring the
per-file dictionary update of detect_file_patterns. -/
def addToGroup (m : List (String × PatternData)) (key fn : String) (num pad : Nat)
    (p s e : String) (pure_num : Bool) : List (String × PatternData) :=
  let cur := (dictGet m key).getD ⟨[], "", "", 0, "", false⟩
  dictSet m key ⟨cur.files ++ [(fn, num)], p, s, max cur.padding pad, e, pure_num⟩

/-- detect_file_patterns from the source, over a directory listing given
as a list of filenames: group by pure-numeric stem, prefix-number stem,
or prefix-number-suffix stem, then keep groups with at least two
files. -/
def detect_file_patterns (files : List String) : List (String × PatternData) :=
  (files.foldl (fun m fn =>
    let se := splitext fn.data
    let nameC := se.1
    let ext := String.mk se.2
    if !nameC.isEmpty && nameC.all Char.isDigit then
      addToGroup m ("PURE_NUMERIC_" ++ ext) fn (digitsToNat nameC) nameC.length "" "" ext true
    else
      match matchLazyPreNum? nameC with
      | some pr =>
        addToGroup m (String.mk pr.1 ++ "_" ++ ext) fn (digitsToNat pr.2) pr.2.length
          (String.mk pr.1) "" ext false
      | none =>
        match matchLazyPreNumSuf? nameC with
        | some pns =>
          addToGroup m (String.mk pns.1 ++ "_NUM_" ++ String.mk pns.2.2 ++ "_" ++ ext) fn
            (digitsToNat pns.2.1) pns.2.1.length (String.mk pns.1) (String.mk pns.2.2) ext false
        | none => m) []).filter (fun kv => 2 ≤ kv.2.files.length)

/-- The extracted numbers of a group. -/
def groupNums (g : PatternData) : List Nat := g.files.map (fun x => x.2)

/-- The sorted numbers of a group, as Python sorted produces them. -/
def sortedNums (g : PatternData) : List Nat :=
  List.insertionSort (fun a b => a ≤ b) (groupNums g)

/-- find_missing_files from the source: the expected range starts at one
for pure numeric groups and at the smallest present number otherwise,
ends at the largest present number, and the missing numbers are those
of the range not present. -/
def find_missing_files (g : PatternData) : List Nat :=
  if g.files.isEmpty then []
  else
    let numbers := sortedNums g
    let first_num := numbers.headD 0
    let last_num := numbers.getLastD 0
    let start := if g.is_pure_numeric then 1 else first_num
    (List.range' start (last_num + 1 - start)).filter (fun n => !numbers.contains n)

/-- Fixture: the pure-numeric gap-detection group of the spec example. -/
def gExPure : PatternData :=
  ⟨[("001.jpg", 1), ("002.jpg", 2), ("005.jpg", 5)], "", "", 3, ".jpg", true⟩

/-- Fixture: a one-file file system for the collision matrix. -/
def fsEx : FileSystem := [("root/photos/a.jpg", ⟨5, some 100⟩)]

/-- Fixture: an incoming file of the same size, half a second apart. -/
def srcEx : FileInfo := ⟨5, some (201/2)⟩

/-- Fixture: a learner state with one signature at count one. -/
def stEx : Patterns := [("TEXT-NNN", ⟨"Vacation", 1, ["vacation-001.jpg"]⟩)]

/-- Fixture: a hash database with one record for a.jpg. -/
def dbEx : List HashRecord := [⟨"a.jpg", 5, "h1", "p1"⟩]

/-!
Helper lemmas shared by the claim theorems.
-/

theorem mk_data (s : String) : String.mk s.data = s := rfl

theorem toUpper_underscore : Char.toUpper '_' = '_' := by decide

theorem reserved_no_underscore_last :
    ∀ r ∈ reservedNames, r.data.getLast? ≠ some '_' := by decide

theorem reserved_no_dot : ∀ r ∈ reservedNames, '.' ∉ r.data := by decide

theorem takeWhile_all {p : Char → Bool} (l : List Char) (h : ∀ c ∈ l, p c = true) :
    l.takeWhile p = l := by
  induction l with
  | nil => rfl
  | cons c t ih =>
    rw [List.takeWhile_cons]
    simp only [h c (List.mem_cons_self c t), if_true,
      ih (fun x hx => h x (List.mem_cons_of_mem c hx))]

theorem reservedCI_append_underscore (s : String) : reservedCI (s ++ "_") = false := by
  rw [Bool.eq_false_iff]
  intro hc
  unfold reservedCI at hc
  have hmem : upperStr (s ++ "_") ∈ reservedNames := by
    simpa [List.contains, List.elem_iff] using hc
  have hlast : (upperStr (s ++ "_")).data.getLast? = some '_' := by
    show ((s ++ "_").data.map Char.toUpper).getLast? = some '_'
    rw [String.data_append, List.map_append,
      show "_".data.map Char.toUpper = ['_'] from by decide]
    exact List.getLast?_concat _
  exact reserved_no_underscore_last _ hmem hlast

theorem reservedCI_sanitize (s : String) : reservedCI (sanitize_folder_name s) = false := by
  unfold sanitize_folder_name
  by_cases h0 : s = ""
  · simp only [h0, if_pos rfl]
    decide
  · rw [if_neg h0]
    set base := upperStr (String.mk (s.data.takeWhile (fun c => c ≠ '.'))) with hbase
    by_cases hres : reservedNames.contains base = true
    · rw [if_pos hres]
      exact reservedCI_append_underscore s
    · rw [if_neg hres]
      rw [Bool.eq_false_iff]
      intro hc
      apply hres
      have hmem : upperStr s ∈ reservedNames := by
        simpa [reservedCI, List.contains, List.elem_iff] using hc
      have hnodot : ∀ c ∈ s.data, (fun c => decide (c ≠ '.')) c = true := by
        intro c hcs
        simp only [decide_eq_true_eq]
        intro hdot
        subst hdot
        have hmap : Char.toUpper '.' ∈ s.data.map Char.toUpper := List.mem_map_of_mem _ hcs
        have hdot2 : '.' ∈ (upperStr s).data := by
          simpa [upperStr] using hmap
        exact reserved_no_dot _ hmem hdot2
      have htw : s.data.takeWhile (fun c => decide (c ≠ '.')) = s.data :=
        takeWhile_all _ hnodot
      rw [hbase, htw, mk_data]
      simpa [List.contains, List.elem_iff] using hmem

theorem detect_folder_name_sanitized (fn f : String) (h : detect_folder_name fn = some f) :
    ∃ x, f = sanitize_folder_name x := by
  simp only [detect_folder_name] at h
  revert h
  generalize folderCandidate _ _ = fo
  intro h
  match fo with
  | none => exact Option.noConfusion h
  | some g =>
    simp only [finishFolder] at h
    split at h
    · exact Option.noConfusion h
    · exact ⟨_, (Option.some.inj h).symm⟩

theorem detect_sequential_pattern_sanitized (fn f : String)
    (h : detect_sequential_pattern fn = some f) : ∃ x, f = sanitize_folder_name x := by
  simp only [detect_sequential_pattern] at h
  split at h
  · split at h <;> exact ⟨_, (Option.some.inj h).symm⟩
  · split at h
    · split at h <;> exact ⟨_, (Option.some.inj h).symm⟩
    · split at h
      · exact ⟨_, (Option.some.inj h).symm⟩
      · exact Option.noConfusion h

theorem extract_img_tag_sanitized (fn f : String) (h : extract_img_tag fn = some f) :
    ∃ x, f = sanitize_folder_name x := by
  simp only [extract_img_tag] at h
  split at h
  · exact ⟨_, (Option.some.inj h).symm⟩
  · exact Option.noConfusion h

/-- C3: for every input string, sanitize_folder_name never returns a
value case-insensitively equal to an OS-reserved device name, and every
folder name produced by detect_folder_name, detect_sequential_pattern
and extract_img_tag passes through this sanitization, so none of their
outputs is ever case-insensitively reserved. -/
theorem C3_reserved_name_invariant :
    (∀ s : String, reservedCI (sanitize_folder_name s) = false) ∧
    (∀ fn f : String, detect_folder_name fn = some f → reservedCI f = false) ∧
    (∀ fn f : String, detect_sequential_pattern fn = some f → reservedCI f = false) ∧
    (∀ fn f : String, extract_img_tag fn = some f → reservedCI f = false) := by
  refine ⟨reservedCI_sanitize, ?_, ?_, ?_⟩
  · intro fn f h
    obtain ⟨x, hx⟩ := detect_folder_name_sanitized fn f h
    rw [hx]
    exact reservedCI_sanitize x
  · intro fn f h
    obtain ⟨x, hx⟩ := detect_sequential_pattern_sanitized fn f h
    rw [hx]
    exact reservedCI_sanitize x
  · intro fn f h
    obtain ⟨x, hx⟩ := extract_img_tag_sanitized fn f h
    rw [hx]
    exact reservedCI_sanitize x

/-- Witness for C3 at a concrete input: the sequence detector maps
con-01.jpg to the sanitized folder Con_, which is not reserved. -/
theorem C3_reserved_name_invariant_witness : reservedCI "Con_" = false :=
  C3_reserved_name_invariant.2.2.1 "con-01.jpg" "Con_" (by decide)

/-- C6 counterexample: the claim says name_set_001 and name_set-002 land
in differently suffixed folders Name_Set and Name_Set[-]; in the code
the final number of name_set-002 is stripped together with its
delimiter before the tag check, so both names map to the same folder
Name_Set and the tagged folder is not produced. -/
theorem C6_counterexample :
    detect_folder_name "name_set_001" = some "Name_Set" ∧
    detect_folder_name "name_set-002" = some "Name_Set" ∧
    detect_folder_name "name_set-002" ≠ some "Name_Set[-]" := by
  refine ⟨by decide, by decide, by decide⟩

/-- C6 amended: the cross-delimiter tag is appended only when a trailing
number is still present after the final separator-anchored number
suffix has been stripped; a lone final sequence number is removed along
with its delimiter, so name_set_001 and name_set-002 both map to the
same folder Name_Set, while names with two trailing number groups do
receive the tag, as in a_b-12-34 mapping to A_B[-] and a-b_12_34
mapping to A-B[_]. -/
theorem C6_amended_cross_delimiter_tag :
    detect_folder_name "name_set_001" = some "Name_Set" ∧
    detect_folder_name "name_set-002" = some "Name_Set" ∧
    detect_folder_name "a_b-12-34" = some "A_B[-]" ∧
    detect_folder_name "a-b_12_34" = some "A-B[_]" := by
  refine ⟨by decide, by decide, by decide, by decide⟩

/-- C7 counterexample: the claim says a non-uppercase word keeps its
remaining characters unchanged, fooBAR becoming FooBAR; the code uses
the Python capitalize, which lowercases the rest, so smart_title maps
fooBAR to Foobar and the sequence detector maps fooBAR-12.jpg to
Foobar. -/
theorem C7_counterexample :
    smart_title "fooBAR" = "Foobar" ∧
    smart_title "fooBAR" ≠ "FooBAR" ∧
    detect_sequential_pattern "fooBAR-12.jpg" = some "Foobar" ∧
    detect_sequential_pattern "fooBAR-12.jpg" ≠ some "FooBAR" := by
  refine ⟨by decide, by decide, by decide, by decide⟩

theorem pySplit_no_sep (sep : Char) (l : List Char) (h : sep ∉ l) : pySplit sep l = [l] := by
  induction l with
  | nil => rfl
  | cons c cs ih =>
    have hc : ¬(c = sep) := fun he => h (he ▸ List.mem_cons_self c cs)
    have hcs : sep ∉ cs := fun hm => h (List.mem_cons_of_mem c hm)
    simp only [pySplit, if_neg hc, ih hcs]

theorem intercalate_single (sep x : List Char) : List.intercalate sep [x] = x := by
  simp [List.intercalate]

/-- C7 amended: in smart_title and in the sequence detector a word that
is entirely uppercase is kept as-is, and any other word is capitalized
the Python way, first letter uppercased and the remaining letters
lowercased, so DSLR stays DSLR, film becomes Film and fooBAR becomes
Foobar, not FooBAR. -/
theorem C7_amended_casing (w : String) (h : ('_' : Char) ∉ w.data) :
    smart_title w = (if pyIsUpper w.data then w else String.mk (pyCapitalize w.data)) ∧
    smart_title "DSLR" = "DSLR" ∧ smart_title "film" = "Film" ∧
    smart_title "fooBAR" = "Foobar" ∧
    detect_sequential_pattern "DSLR-01.jpg" = some "DSLR" ∧
    detect_sequential_pattern "film-01.jpg" = some "Film" ∧
    detect_sequential_pattern "fooBAR-12.jpg" = some "Foobar" := by
  refine ⟨?_, by decide, by decide, by decide, by decide, by decide, by decide⟩
  unfold smart_title smart_title_chars
  rw [pySplit_no_sep _ _ h]
  simp only [List.map]
  rw [intercalate_single]
  by_cases hc : pyIsUpper w.data = true
  · simp [hc, mk_data]
  · simp [hc]

/-- Witness for C7 amended, applied at the single word fooBAR. -/
theorem C7_amended_casing_witness :
    smart_title "fooBAR" =
      (if pyIsUpper "fooBAR".data then "fooBAR" else String.mk (pyCapitalize "fooBAR".data)) :=
  (C7_amended_casing "fooBAR" (by decide)).1

theorem dictGet_dictSet_self {α : Type} (st : List (String × α)) (k : String) (v : α) :
    dictGet (dictSet st k v) k = some v := by
  induction st with
  | nil => simp [dictSet, dictGet]
  | cons hd t ih =>
    obtain ⟨k2, v2⟩ := hd
    by_cases hk : k2 = k
    · simp [dictSet, hk, dictGet]
    · simp [dictSet, hk, dictGet, ih]

theorem dictGet_dictSet_ne {α : Type} (st : List (String × α)) (k k' : String) (v : α)
    (h : k ≠ k') : dictGet (dictSet st k v) k' = dictGet st k' := by
  induction st with
  | nil => simp [dictSet, dictGet, h]
  | cons hd t ih =>
    obtain ⟨k2, v2⟩ := hd
    by_cases hk : k2 = k
    · subst hk
      simp [dictSet, dictGet, h, ih]
    · simp [dictSet, hk, dictGet, ih]

theorem append_ALT_ne (s : String) : s ++ "_ALT" ≠ s := by
  intro h
  have hlen := congrArg (fun x => x.data.length) h
  simp [String.data_append] at hlen

/-- C5: learn creates a count-one entry for an unknown signature,
increments the count on agreement, derives a signature_ALT entry with
count one while keeping the original folder and count when the stored
count exceeds three, and otherwise overwrites the folder and resets the
count to one. -/
theorem C5_learn_update_rule :
    (∀ (st : Patterns) (fn folder : String),
      dictGet st (extract_signature fn) = none →
      dictGet (PatternLearner.learn st fn folder) (extract_signature fn) =
        some ⟨folder, 1, [fn]⟩) ∧
    (∀ (st : Patterns) (fn folder : String) (p : LearnedPattern),
      dictGet st (extract_signature fn) = some p → p.folder = folder →
      dictGet (PatternLearner.learn st fn folder) (extract_signature fn) =
        some ⟨folder, p.count + 1, lastN 5 (p.examples ++ [fn])⟩) ∧
    (∀ (st : Patterns) (fn folder : String) (p : LearnedPattern),
      dictGet st (extract_signature fn) = some p → p.folder ≠ folder → p.count > 3 →
      dictGet (PatternLearner.learn st fn folder) (extract_signature fn ++ "_ALT") =
          some ⟨folder, 1, [fn]⟩ ∧
        dictGet (PatternLearner.learn st fn folder) (extract_signature fn) =
          some ⟨p.folder, p.count, lastN 5 (p.examples ++ [fn])⟩) ∧
    (∀ (st : Patterns) (fn folder : String) (p : LearnedPattern),
      dictGet st (extract_signature fn) = some p → p.folder ≠ folder → p.count ≤ 3 →
      dictGet (PatternLearner.learn st fn folder) (extract_signature fn) =
        some ⟨folder, 1, lastN 5 (p.examples ++ [fn])⟩) := by
  refine ⟨?_, ?_, ?_, ?_⟩
  · intro st fn folder h
    simp only [PatternLearner.learn]
    rw [h]
    exact dictGet_dictSet_self st _ _
  · intro st fn folder p h hf
    simp only [PatternLearner.learn]
    rw [h]
    simp only [if_pos hf, hf]
    exact dictGet_dictSet_self st _ _
  · intro st fn folder p h hf hc
    simp only [PatternLearner.learn]
    rw [h]
    simp only [if_neg hf, if_pos hc]
    constructor
    · rw [dictGet_dictSet_ne _ _ _ _ (append_ALT_ne (extract_signature fn)).symm]
      exact dictGet_dictSet_self _ _ _
    · exact dictGet_dictSet_self _ _ _
  · intro st fn folder p h hf hc
    simp only [PatternLearner.learn]
    rw [h]
    simp only [if_neg hf, if_neg (by omega : ¬p.count > 3)]
    exact dictGet_dictSet_self st _ _

/-- Witness for C5 at a fresh state: learning vacation-001.jpg into
Holidays creates its signature entry with count one. -/
theorem C5_learn_update_rule_witness :
    dictGet (PatternLearner.learn [] "vacation-001.jpg" "Holidays")
      (extract_signature "vacation-001.jpg") = some ⟨"Holidays", 1, ["vacation-001.jpg"]⟩ :=
  C5_learn_update_rule.1 [] "vacation-001.jpg" "Holidays" rfl

/-- C8 counterexample: for a signature stored with count one, predict
returns confidence min(0.99, 0.80 + 1*0.03) = 0.83, not the 0.80 floor
the claim asserts for the first use. -/
theorem C8_counterexample :
    PatternLearner.predict stEx "trip-042.jpg" = some ("Vacation", 83/100) ∧
    (83/100 : ℚ) ≠ 80/100 := by
  constructor
  · show PatternLearner.predict stEx "trip-042.jpg" = some ("Vacation", 83/100)
    unfold PatternLearner.predict
    rw [show extract_signature "trip-042.jpg" = "TEXT-NNN" from rfl,
      show dictGet stEx "TEXT-NNN" = some ⟨"Vacation", 1, ["vacation-001.jpg"]⟩ from rfl]
    norm_num
  · norm_num

/-- C8 amended: for every stored signature, predict returns confidence
min(0.99, 0.80 + count*0.03), which equals 0.83 for count one, lies in
the interval from 0.80 to 0.99, and never reaches 1.0. -/
theorem C8_amended_confidence (st : Patterns) (fn : String) (p : LearnedPattern)
    (h : dictGet st (extract_signature fn) = some p) :
    PatternLearner.predict st fn =
      some (p.folder, min (99/100 : ℚ) (80/100 + p.count * (3/100))) ∧
    (p.count = 1 → min (99/100 : ℚ) (80/100 + p.count * (3/100)) = 83/100) ∧
    (80/100 : ℚ) ≤ min (99/100 : ℚ) (80/100 + p.count * (3/100)) ∧
    min (99/100 : ℚ) (80/100 + p.count * (3/100)) ≤ 99/100 ∧
    min (99/100 : ℚ) (80/100 + p.count * (3/100)) < 1 := by
  refine ⟨?_, ?_, ?_, min_le_left _ _, lt_of_le_of_lt (min_le_left _ _) (by norm_num)⟩
  · unfold PatternLearner.predict
    rw [h]
  · intro hc
    rw [hc]
    norm_num
  · refine le_min (by norm_num) ?_
    have : (0 : ℚ) ≤ p.count * (3/100) := by positivity
    linarith

/-- Witness for C8 amended at the count-one fixture state. -/
theorem C8_amended_confidence_witness :
    PatternLearner.predict stEx "trip-042.jpg" =
      some (("Vacation" : String), min (99/100 : ℚ)
        (80/100 + (1 : Nat) * (3/100))) :=
  (C8_amended_confidence stEx "trip-042.jpg" ⟨"Vacation", 1, ["vacation-001.jpg"]⟩ rfl).1

/-- C2: detection priority is fixed with the first match winning:
learned patterns, then camera tags at 0.95, sequential patterns at
0.90, smart delimiter patterns at 0.80, otherwise no folder at 0.0; in
particular IMG_1234.jpg with no learned entry for its signature
IMG_NNNN resolves to folder IMG at 0.95 by camera tag even though the
sequence detector also matches it. -/
theorem C2_detection_priority :
    (∀ (st : Patterns) (fn folder : String) (conf : ℚ),
      PatternLearner.predict st fn = some (folder, conf) →
      IntelligentPatternDetector.detect st fn = (some folder, conf, "Learned Pattern")) ∧
    (∀ (st : Patterns) (fn tag : String),
      PatternLearner.predict st fn = none → extract_img_tag fn = some tag →
      IntelligentPatternDetector.detect st fn = (some tag, 95/100, "Camera Tag")) ∧
    (∀ (st : Patterns) (fn s : String),
      PatternLearner.predict st fn = none → extract_img_tag fn = none →
      detect_sequential_pattern fn = some s →
      IntelligentPatternDetector.detect st fn = (some s, 90/100, "Sequential Pattern")) ∧
    (∀ (st : Patterns) (fn s : String),
      PatternLearner.predict st fn = none → extract_img_tag fn = none →
      detect_sequential_pattern fn = none → detect_folder_name fn = some s →
      IntelligentPatternDetector.detect st fn = (some s, 80/100, "Smart Pattern")) ∧
    (∀ (st : Patterns) (fn : String),
      PatternLearner.predict st fn = none → extract_img_tag fn = none →
      detect_sequential_pattern fn = none → detect_folder_name fn = none →
      IntelligentPatternDetector.detect st fn = (none, 0, "No Pattern")) ∧
    (∀ st : Patterns, dictGet st "IMG_NNNN" = none →
      IntelligentPatternDetector.detect st "IMG_1234.jpg" =
        (some "IMG", 95/100, "Camera Tag")) ∧
    detect_sequential_pattern "IMG_1234.jpg" = some "IMG" := by
  refine ⟨?_, ?_, ?_, ?_, ?_, ?_, by decide⟩
  · intro st fn folder conf h
    unfold IntelligentPatternDetector.detect
    rw [h]
  · intro st fn tag h1 h2
    unfold IntelligentPatternDetector.detect
    rw [h1, h2]
  · intro st fn s h1 h2 h3
    unfold IntelligentPatternDetector.detect
    rw [h1, h2, h3]
  · intro st fn s h1 h2 h3 h4
    unfold IntelligentPatternDetector.detect
    rw [h1, h2, h3, h4]
  · intro st fn h1 h2 h3 h4
    unfold IntelligentPatternDetector.detect
    rw [h1, h2, h3, h4]
  · intro st h
    have hp : PatternLearner.predict st "IMG_1234.jpg" = none := by
      unfold PatternLearner.predict
      rw [show extract_signature "IMG_1234.jpg" = "IMG_NNNN" from rfl, h]
    unfold IntelligentPatternDetector.detect
    rw [hp, show extract_img_tag "IMG_1234.jpg" = some "IMG" from by decide]

/-- Witness for C2 at the empty learner state. -/
theorem C2_detection_priority_witness :
    IntelligentPatternDetector.detect [] "IMG_1234.jpg" =
      (some "IMG", 95/100, "Camera Tag") :=
  C2_detection_priority.2.2.2.2.2.1 [] rfl

/-- C10: when check_duplicate is called for a filename that already has
recorded entries but the content hash cannot be computed, it returns
the first-occurrence answer (false, empty string) and leaves the
database unchanged. -/
theorem C10_unreadable_hash_first_occurrence
    (db : List HashRecord) (filename : String) (size : Int) (filepath : String)
    (h : db.filter (fun r => r.filename = filename) ≠ []) :
    check_duplicate db filename size filepath none = ((false, ""), db) := by
  unfold check_duplicate
  rw [if_neg (by simpa [List.isEmpty_iff] using h)]

/-- Witness for C10 at a one-record database. -/
theorem C10_unreadable_hash_first_occurrence_witness :
    check_duplicate dbEx "a.jpg" 7 "p2" none = ((false, ""), dbEx) :=
  C10_unreadable_hash_first_occurrence dbEx "a.jpg" 7 "p2" (by decide)

theorem predict_conf_bounds (st : Patterns) (fn folder : String) (conf : ℚ)
    (h : PatternLearner.predict st fn = some (folder, conf)) : 0 ≤ conf ∧ conf ≤ 1 := by
  unfold PatternLearner.predict at h
  cases hd : dictGet st (extract_signature fn) with
  | none => rw [hd] at h; exact Option.noConfusion h
  | some p =>
    rw [hd] at h
    have hconf : conf = min (99/100 : ℚ) (80/100 + p.count * (3/100)) :=
      (Prod.mk.injEq _ _ _ _ ▸ Option.some.inj h).2.symm
    constructor
    · rw [hconf]
      refine le_min (by norm_num) ?_
      have : (0 : ℚ) ≤ p.count * (3/100) := by positivity
      linarith
    · rw [hconf]
      exact le_trans (min_le_left _ _) (by norm_num)

/-- C9: the detection functions are total over arbitrary strings: for
every learner state and filename, detect returns a confidence in the
unit interval and one of the five method labels, and on edge inputs
such as the empty string, punctuation-only names and extension-less
names every detector returns a well-formed no-match result. -/
theorem C9_detector_totality :
    (∀ (st : Patterns) (fn : String),
      0 ≤ (IntelligentPatternDetector.detect st fn).2.1 ∧
      (IntelligentPatternDetector.detect st fn).2.1 ≤ 1 ∧
      ((IntelligentPatternDetector.detect st fn).2.2 = "Learned Pattern" ∨
       (IntelligentPatternDetector.detect st fn).2.2 = "Camera Tag" ∨
       (IntelligentPatternDetector.detect st fn).2.2 = "Sequential Pattern" ∨
       (IntelligentPatternDetector.detect st fn).2.2 = "Smart Pattern" ∨
       (IntelligentPatternDetector.detect st fn).2.2 = "No Pattern")) ∧
    IntelligentPatternDetector.detect [] "" = (none, 0, "No Pattern") ∧
    IntelligentPatternDetector.detect [] "..." = (none, 0, "No Pattern") ∧
    IntelligentPatternDetector.detect [] "!!!" = (none, 0, "No Pattern") ∧
    IntelligentPatternDetector.detect [] "photo" = (none, 0, "No Pattern") ∧
    detect_folder_name "" = none ∧
    detect_sequential_pattern "" = none ∧
    extract_img_tag "" = none ∧
    extract_signature "" = "" ∧
    PatternLearner.predict [] "" = none := by
  refine ⟨?_, by decide, by decide, by decide, by decide,
    by decide, by decide, by decide, by decide, by decide⟩
  intro st fn
  unfold IntelligentPatternDetector.detect
  cases hp : PatternLearner.predict st fn with
  | some fc =>
    obtain ⟨folder, conf⟩ := fc
    obtain ⟨h0, h1⟩ := predict_conf_bounds st fn folder conf hp
    exact ⟨h0, h1, Or.inl rfl⟩
  | none =>
    cases extract_img_tag fn with
    | some tag => exact ⟨by norm_num, by norm_num, Or.inr (Or.inl rfl)⟩
    | none =>
      cases detect_sequential_pattern fn with
      | some s => exact ⟨by norm_num, by norm_num, Or.inr (Or.inr (Or.inl rfl))⟩
      | none =>
        cases detect_folder_name fn with
        | some s => exact ⟨by norm_num, by norm_num, Or.inr (Or.inr (Or.inr (Or.inl rfl)))⟩
        | none => exact ⟨by norm_num, by norm_num, Or.inr (Or.inr (Or.inr (Or.inr rfl)))⟩

theorem collisionLoop_no_collision (fs : FileSystem) (base ext tr df : String)
    (ss sd : Bool) (fuel : Nat) (dst : String) (counter : Nat)
    (hf : 0 < fuel) (h : dictGet fs dst = none) :
    collisionLoop fs base ext tr df ss sd fuel dst counter = some dst := by
  cases fuel with
  | zero => exact absurd hf (lt_irrefl 0)
  | succ n => simp [collisionLoop, h]

/-- C1: when the destination folder already holds a file of the same
name, the move destination follows the two-axis decision matrix: same
size and same date divert to the sibling !Dupes folder with a [d] tag
before the extension; different size and same date divert to the
sibling !Dupes Size folder with a brace-d tag; same size and different
date keep the original target folder with a [d] tag; different size and
different date keep the original target folder with a brace-d tag. -/
theorem C1_duplicate_decision_matrix
    (fs : FileSystem) (srcInfo dstInfo : FileInfo) (dst_folder filename : String)
    (hcol : dictGet fs (pathJoin dst_folder filename) = some dstInfo) :
    (srcInfo.size = dstInfo.size → sameDateB srcInfo.date dstInfo.date = true →
      dictGet fs (pathJoin (pathJoin (dirname dst_folder) "!Dupes")
        (String.mk (splitext filename.data).1 ++ "[d]" ++
          String.mk (splitext filename.data).2)) = none →
      move_file fs srcInfo dst_folder filename =
        some (pathJoin (pathJoin (dirname dst_folder) "!Dupes")
          (String.mk (splitext filename.data).1 ++ "[d]" ++
            String.mk (splitext filename.data).2))) ∧
    (srcInfo.size ≠ dstInfo.size → sameDateB srcInfo.date dstInfo.date = true →
      dictGet fs (pathJoin (pathJoin (dirname dst_folder) "!Dupes Size")
        (String.mk (splitext filename.data).1 ++ "{d}" ++
          String.mk (splitext filename.data).2)) = none →
      move_file fs srcInfo dst_folder filename =
        some (pathJoin (pathJoin (dirname dst_folder) "!Dupes Size")
          (String.mk (splitext filename.data).1 ++ "{d}" ++
            String.mk (splitext filename.data).2))) ∧
    (srcInfo.size = dstInfo.size → sameDateB srcInfo.date dstInfo.date = false →
      dictGet fs (pathJoin dst_folder
        (String.mk (splitext filename.data).1 ++ "[d]" ++
          String.mk (splitext filename.data).2)) = none →
      move_file fs srcInfo dst_folder filename =
        some (pathJoin dst_folder
          (String.mk (splitext filename.data).1 ++ "[d]" ++
            String.mk (splitext filename.data).2))) ∧
    (srcInfo.size ≠ dstInfo.size → sameDateB srcInfo.date dstInfo.date = false →
      dictGet fs (pathJoin dst_folder
        (String.mk (splitext filename.data).1 ++ "{d}" ++
          String.mk (splitext filename.data).2)) = none →
      move_file fs srcInfo dst_folder filename =
        some (pathJoin dst_folder
          (String.mk (splitext filename.data).1 ++ "{d}" ++
            String.mk (splitext filename.data).2))) := by
  refine ⟨?_, ?_, ?_, ?_⟩
  · intro hsz hdt hfree
    simp only [move_file]
    rw [hcol]
    simp only [hsz, decide_eq_true_eq, decide_True, hdt, collisionDst, Bool.and_self,
      if_true, if_pos rfl]
    exact collisionLoop_no_collision _ _ _ _ _ _ _ _ _ _ (by omega) hfree
  · intro hsz hdt hfree
    have hszb : decide (srcInfo.size = dstInfo.size) = false := by simp [hsz]
    simp only [move_file]
    rw [hcol]
    simp only [hszb, hdt, collisionDst, Bool.false_and, Bool.not_false, Bool.true_and,
      Bool.false_eq_true, if_false, if_true]
    exact collisionLoop_no_collision _ _ _ _ _ _ _ _ _ _ (by omega) hfree
  · intro hsz hdt hfree
    have hszb : decide (srcInfo.size = dstInfo.size) = true := by simp [hsz]
    simp only [move_file]
    rw [hcol]
    simp only [hszb, hdt, collisionDst, Bool.and_false, Bool.not_true, Bool.false_and,
      Bool.true_eq_false, Bool.false_eq_true, if_false, if_true]
    exact collisionLoop_no_collision _ _ _ _ _ _ _ _ _ _ (by omega) hfree
  · intro hsz hdt hfree
    have hszb : decide (srcInfo.size = dstInfo.size) = false := by simp [hsz]
    simp only [move_file]
    rw [hcol]
    simp only [hszb, hdt, collisionDst, Bool.and_false, Bool.false_and, Bool.not_false,
      Bool.true_and, Bool.true_eq_false, Bool.false_eq_true, if_false, if_true]
    exact collisionLoop_no_collision _ _ _ _ _ _ _ _ _ _ (by omega) hfree

/-- Witness for C1: a same-size file half a second apart is diverted to
the sibling !Dupes folder with the [d] tag. -/
theorem C1_duplicate_decision_matrix_witness :
    move_file fsEx srcEx "root/photos" "a.jpg" = some "root/!Dupes/a[d].jpg" := by
  rw [(C1_duplicate_decision_matrix fsEx srcEx ⟨5, some 100⟩ "root/photos" "a.jpg"
    (by decide)).1 (by decide) (by norm_num [sameDateB, srcEx, ratAbs]) (by decide)]
  decide

theorem sortedNums_perm (g : PatternData) : (sortedNums g).Perm (groupNums g) :=
  List.perm_insertionSort _ _

theorem sortedNums_sorted (g : PatternData) :
    List.Sorted (fun a b => a ≤ b) (sortedNums g) :=
  List.sorted_insertionSort _ _

theorem sorted_headD_le (l : List Nat) (hs : List.Sorted (fun a b => a ≤ b) l)
    (x : Nat) (hx : x ∈ l) : l.headD 0 ≤ x := by
  cases l with
  | nil => cases hx
  | cons a t =>
    rcases List.mem_cons.mp hx with rfl | hx2
    · simp
    · simpa using List.rel_of_sorted_cons hs x hx2

theorem sorted_le_getLastD (l : List Nat) (hs : List.Sorted (fun a b => a ≤ b) l) :
    ∀ x ∈ l, x ≤ l.getLastD 0 := by
  induction l with
  | nil => intro x hx; cases hx
  | cons a t ih =>
    rw [List.sorted_cons] at hs
    obtain ⟨ha, ht⟩ := hs
    intro x hx
    cases t with
    | nil =>
      rcases List.mem_cons.mp hx with rfl | h2
      · simp
      · cases h2
    | cons b u =>
      have hlast : (a :: b :: u).getLastD 0 = (b :: u).getLastD 0 := by
        simp [List.getLastD_eq_getLast?, List.getLast?_cons_cons]
      rw [hlast]
      rcases List.mem_cons.mp hx with rfl | hx2
      · exact le_trans (ha b (List.mem_cons_self b u)) (ih ht b (List.mem_cons_self b u))
      · exact ih ht x hx2

theorem contains_eq_false_of_not_mem {l : List Nat} {n : Nat} (h : n ∉ l) :
    l.contains n = false := by
  rw [Bool.eq_false_iff]
  intro hct
  exact h (by simpa [List.contains, List.elem_iff] using hct)

theorem getLastD_mem (l : List Nat) (h : l ≠ []) : l.getLastD 0 ∈ l := by
  induction l with
  | nil => exact absurd rfl h
  | cons a t ih =>
    cases t with
    | nil => simp
    | cons b u =>
      have hlast : (a :: b :: u).getLastD 0 = (b :: u).getLastD 0 := by
        simp [List.getLastD_eq_getLast?, List.getLast?_cons_cons]
      rw [hlast]
      exact List.mem_cons_of_mem a (ih (by simp))

theorem headD_mem (l : List Nat) (h : l ≠ []) : l.headD 0 ∈ l := by
  cases l with
  | nil => exact absurd rfl h
  | cons a t => simp

/-- C4: for every non-empty pattern group, find_missing_files returns
exactly the integers absent from the group within the expected range,
which starts at one for pure-numeric groups and at the smallest present
number otherwise and always ends at the largest present number; and the
two spec examples evaluate as claimed, the pure group 001, 002, 005
yielding 3 and 4 and the prefixed group IMG_010, IMG_015 yielding 11
through 14. -/
theorem C4_gap_detection :
    (∀ g : PatternData, g.files ≠ [] →
      (sortedNums g).headD 0 ∈ groupNums g ∧
      (sortedNums g).getLastD 0 ∈ groupNums g ∧
      (∀ x ∈ groupNums g,
        (sortedNums g).headD 0 ≤ x ∧ x ≤ (sortedNums g).getLastD 0) ∧
      (∀ n : Nat, n ∈ find_missing_files g ↔
        ((if g.is_pure_numeric then 1 else (sortedNums g).headD 0) ≤ n ∧
         n ≤ (sortedNums g).getLastD 0 ∧ n ∉ groupNums g))) ∧
    (detect_file_patterns ["001.jpg", "002.jpg", "005.jpg"]).map
        (fun kv => (kv.1, find_missing_files kv.2)) =
      [("PURE_NUMERIC_.jpg", [3, 4])] ∧
    (detect_file_patterns ["IMG_010.jpg", "IMG_015.jpg"]).map
        (fun kv => (kv.1, find_missing_files kv.2)) =
      [("IMG__.jpg", [11, 12, 13, 14])] := by
  refine ⟨?_, by decide, by decide⟩
  intro g hfiles
  have hg : groupNums g ≠ [] := by
    simpa [groupNums, List.map_eq_nil_iff] using hfiles
  have hs : sortedNums g ≠ [] := by
    intro h
    exact hg ((h ▸ sortedNums_perm g).symm.eq_nil)
  have hmem : ∀ x, x ∈ sortedNums g ↔ x ∈ groupNums g :=
    fun x => (sortedNums_perm g).mem_iff
  have hhead : (sortedNums g).headD 0 ∈ groupNums g :=
    (hmem _).mp (headD_mem _ hs)
  have hlastm : (sortedNums g).getLastD 0 ∈ groupNums g :=
    (hmem _).mp (getLastD_mem _ hs)
  have hbounds : ∀ x ∈ groupNums g,
      (sortedNums g).headD 0 ≤ x ∧ x ≤ (sortedNums g).getLastD 0 := by
    intro x hx
    exact ⟨sorted_headD_le _ (sortedNums_sorted g) x ((hmem x).mpr hx),
      sorted_le_getLastD _ (sortedNums_sorted g) x ((hmem x).mpr hx)⟩
  refine ⟨hhead, hlastm, hbounds, ?_⟩
  intro n
  have hHL : (sortedNums g).headD 0 ≤ (sortedNums g).getLastD 0 :=
    (hbounds _ hlastm).1
  have key : ∀ start : Nat, start ≤ (sortedNums g).getLastD 0 + 1 →
      (n ∈ (List.range' start ((sortedNums g).getLastD 0 + 1 - start)).filter
          (fun m => !(sortedNums g).contains m) ↔
        (start ≤ n ∧ n ≤ (sortedNums g).getLastD 0 ∧ n ∉ groupNums g)) := by
    intro start hstart
    rw [List.mem_filter, List.mem_range'_1]
    constructor
    · rintro ⟨⟨ha, hb⟩, hc⟩
      refine ⟨ha, by omega, ?_⟩
      intro hmem2
      have hns : n ∈ sortedNums g := (hmem n).mpr hmem2
      simp [List.contains, List.elem_iff, hns] at hc
    · rintro ⟨ha, hb, hcc⟩
      refine ⟨⟨ha, by omega⟩, ?_⟩
      rw [contains_eq_false_of_not_mem (fun hm => hcc ((hmem n).mp hm))]
      rfl
  simp only [find_missing_files]
  rw [if_neg (by simpa [List.isEmpty_iff] using hfiles)]
  by_cases hp : g.is_pure_numeric = true
  · rw [if_pos hp]
    exact key 1 (by omega)
  · rw [if_neg hp]
    exact key ((sortedNums g).headD 0) (by omega)

/-- Witness for C4 at the pure-numeric fixture group: 3 is reported
missing, 2 is not. -/
theorem C4_gap_detection_witness :
    3 ∈ find_missing_files gExPure ∧ 2 ∉ find_missing_files gExPure := by
  have h := C4_gap_detection.1 gExPure (by decide)
  refine ⟨(h.2.2.2 3).mpr (by decide), fun hc => ?_⟩
  have h2 := (h.2.2.2 2).mp hc
  exact h2.2.2 (by decide)

end FileOrg
